import Mathlib

/-!
Verification of the query-translation, validation, registry and governance
core of a schema-less document HTTP API (Express + Mongoose server).

The definitions below are a shallow embedding of `src/server.js`:
pure JS functions become Lean functions, JS objects holding Mongo filter
conditions become explicit maps, and the stateful pieces (model registry,
rate limiters) are modelled by explicit state passing.
-/

namespace TestApiServer

/-! ## JS primitives used by the source -/

/-- Longest prefix of decimal digits, as `parseInt` consumes them. -/
def leadingDigits : List Char → List Char
  | [] => []
  | c :: cs => if c.isDigit then c :: leadingDigits cs else []

/-- Numeric value of a list of decimal digits. -/
def digitsVal (ds : List Char) : Nat :=
  ds.foldl (fun n c => 10 * n + (c.toNat - '0'.toNat)) 0

/-- JS `parseInt(s)` (radix 10 path): skip leading whitespace, optional
sign, then the longest decimal-digit prefix; `none` models `NaN`. -/
def jsParseInt (s : String) : Option Int :=
  let cs := s.toList.dropWhile fun c => c = ' ' ∨ c = '\t' ∨ c = '\n' ∨ c = '\r'
  let signRest : Int × List Char :=
    match cs with
    | '-' :: cs' => (-1, cs')
    | '+' :: cs' => (1, cs')
    | _ => (1, cs)
  let ds := leadingDigits signRest.2
  if ds.isEmpty then none else some (signRest.1 * (digitsVal ds : Int))

/-- JS `x || d` applied to a `parseInt` result: `NaN` and `0` are falsy. -/
def jsOrDefault (v : Option Int) (d : Int) : Int :=
  match v with
  | none => d
  | some n => if n = 0 then d else n

/-- JS `s.startsWith(pre)`. -/
def jsStartsWith (s pre : String) : Bool :=
  pre.toList.isPrefixOf s.toList

/-- JS `s.endsWith(post)`. -/
def jsEndsWith (s post : String) : Bool :=
  post.toList.reverse.isPrefixOf s.toList.reverse

/-- JS `s.slice(n)` for `n ≥ 0`; dropping one char models the removal of
one leading dash by `value.replace` with the anchored dash pattern. -/
def jsDrop (s : String) (n : Nat) : String :=
  String.mk (s.toList.drop n)

/-- JS `s.slice(0, -n)` for `n ≥ 1` (suffix stripping). -/
def jsDropRight (s : String) (n : Nat) : String :=
  String.mk (s.toList.take (s.toList.length - n))

/-! ## Mongo filter values as built by `buildQuery`

A filter condition stored under a field is either a bare string (exact
match, `query[key] = value`) or a JS object of Mongo operators
(`{$gte: v, ...}`).  Objects are modelled extensionally as maps from
string keys to string values. -/

/-- A JS object with string values, modelled extensionally. -/
def JsMap := String → Option String

/-- The empty JS object `{}`. -/
def emptyMap : JsMap := fun _ => none

/-- `{...m, k: v}` : set key `k` (later writes win). -/
def setKey (m : JsMap) (k v : String) : JsMap :=
  fun k' => if k' = k then some v else m k'

/-- JS object spread of a string: `{..."ab"} = {0:"a", 1:"b"}`. -/
def strSpread (s : String) : JsMap :=
  fun k => (s.toList.enum.map fun p => (toString p.1, p.2.toString)).lookup k

/-- The value stored under one filter field: a bare string or an operator
object. -/
inductive FieldCond where
  | str (s : String)
  | obj (m : JsMap)

/-- `query[field] = { ...query[field], op: value }` — the spread of
`undefined` is `{}`, the spread of a string is its indexed characters. -/
def mergeOp (op v : String) : Option FieldCond → FieldCond
  | none => .obj (setKey emptyMap op v)
  | some (.str s) => .obj (setKey (strSpread s) op v)
  | some (.obj m) => .obj (setKey m op v)

/-- The filter object `query`, a map from field name to condition. -/
def Query := String → Option FieldCond

/-- Set one field of the filter. -/
def setField (q : Query) (f : String) (c : FieldCond) : Query :=
  fun f' => if f' = f then some c else q f'

/-- Pagination/sort options; `sort` is the single-key object
`{ [sortField]: sortOrder }`. -/
structure QueryOptions where
  limit : Int
  skip : Int
  sort : String × Int
deriving DecidableEq

/-- Result of `buildQuery`: the filter and the options. -/
structure BuildResult where
  query : Query
  options : QueryOptions

/-! ## `buildQuery` (src/server.js, lines 134–168) -/

/-- One iteration of the `for (const [key, value] of Object.entries(...))`
loop of `buildQuery`, mirroring its if/else chain. -/
def applyParam (s : BuildResult) : String × String → BuildResult
  | (key, value) =>
  if key = "_limit" then
    { s with options :=
        { s.options with limit := min (jsOrDefault (jsParseInt value) 100) 1000 } }
  else if key = "_skip" ∨ key = "_offset" then
    { s with options :=
        { s.options with skip := max (jsOrDefault (jsParseInt value) 0) 0 } }
  else if key = "_sort" then
    let sortOrder : Int := if jsStartsWith value "-" then -1 else 1
    let sortField := if jsStartsWith value "-" then jsDrop value 1 else value
    { s with options := { s.options with sort := (sortField, sortOrder) } }
  else if key = "_search" then
    { s with query := setField s.query "$text" (.obj (setKey emptyMap "$search" value)) }
  else if jsEndsWith key "_gte" then
    let field := jsDropRight key 4
    { s with query := setField s.query field (mergeOp "$gte" value (s.query field)) }
  else if jsEndsWith key "_lte" then
    let field := jsDropRight key 4
    { s with query := setField s.query field (mergeOp "$lte" value (s.query field)) }
  else if jsEndsWith key "_ne" then
    let field := jsDropRight key 3
    { s with query := setField s.query field (.obj (setKey emptyMap "$ne" value)) }
  else if ¬ jsStartsWith key "_" then
    { s with query := setField s.query key (.str value) }
  else s

/-- The initial `query`/`options` values of `buildQuery`. -/
def initState : BuildResult :=
  { query := fun _ => none
    options := { limit := 100, skip := 0, sort := ("createdAt", -1) } }

/-- `buildQuery(queryParams)`: fold the loop body over the entries. -/
def buildQuery (ps : List (String × String)) : BuildResult :=
  ps.foldl applyParam initState

/-- Observe one operator entry of the condition stored under a field
(used to compare filters at concrete points). -/
def condLookup : Option FieldCond → String → Option String
  | some (.obj m), k => m k
  | some (.str s), k => strSpread s k
  | none, _ => none

/-! ## Collection name validation and sanitization
(src/server.js, lines 96–131) -/

/-- Membership in the character class `[a-zA-Z0-9_-]`. -/
def isNameChar (c : Char) : Bool :=
  ('a' ≤ c ∧ c ≤ 'z') ∨ ('A' ≤ c ∧ c ≤ 'Z') ∨ ('0' ≤ c ∧ c ≤ '9') ∨ c = '_' ∨ c = '-'

/-- `isValidCollectionName`: the anchored regex test of the class
`[a-zA-Z0-9_-]` repeated 1 to 50 times, i.e. every character is in the
class and the length lies in `[1, 50]`. -/
def isValidCollectionName (name : String) : Bool :=
  1 ≤ name.toList.length ∧ name.toList.length ≤ 50 ∧ name.toList.all isNameChar

/-- `collectionName.replace` with the global negated-class pattern:
every character outside `[a-zA-Z0-9_-]` is removed. -/
def sanitizeName (s : String) : String :=
  String.mk (s.toList.filter isNameChar)

/-! ## Dynamic collection registry (`getDynamicModel`)

A mongoose model handle is identified by the collection it points at plus
a creation stamp distinguishing separately constructed handles. -/

/-- An in-process model handle; `handleId` is the creation stamp (object
identity), `collection` the backing collection name. -/
structure ModelHandle where
  collection : String
  handleId : Nat
deriving DecidableEq

/-- The process-wide registry: the `dynamicModels` map plus a counter
supplying fresh handle identities. -/
structure RegistryState where
  models : List (String × ModelHandle)
  nextId : Nat
deriving DecidableEq

/-- The initial empty registry (`new Map()`). -/
def emptyRegistry : RegistryState := { models := [], nextId := 0 }

/-- `getDynamicModel(collectionName)`: sanitize, look up the memoized
handle, otherwise create a model for the sanitized collection, memoize
and return it. -/
def getDynamicModel (st : RegistryState) (collectionName : String) :
    ModelHandle × RegistryState :=
  let sanitizedName := sanitizeName collectionName
  match st.models.lookup sanitizedName with
  | some m => (m, st)
  | none =>
    let model : ModelHandle := { collection := sanitizedName, handleId := st.nextId }
    (model, { models := (sanitizedName, model) :: st.models, nextId := st.nextId + 1 })

/-! ## Route handlers

Each handler is a function of its request data and of the store's
response, the latter passed as an `Except String` value so that both the
success and the failure path of the `try`/`catch` are captured.  A
document body is an opaque type parameter. -/

/-- A JSON response: success with a typed body, or an error object
`{error: message}` with a status code. -/
inductive ApiResp (α : Type) where
  | success (status : Nat) (body : α)
  | failure (status : Nat) (error : String)
deriving DecidableEq

/-- Body of a successful collection listing (GET /:collection). -/
structure ListBody (δ : Type) where
  collection : String
  count : Nat
  total : Nat
  docs : List δ
deriving DecidableEq

/-- GET /:collection — validate the name, build the query, run
`find`/`countDocuments` (the store argument), answer 200 with the page,
or 500 with the store's error message. -/
def getCollectionHandler {δ : Type} (name : String) (qp : List (String × String))
    (store : BuildResult → Except String (List δ × Nat)) : ApiResp (ListBody δ) :=
  if ¬ isValidCollectionName name then .failure 400 "Invalid collection name"
  else
    match store (buildQuery qp) with
    | .error e => .failure 500 e
    | .ok (docs, total) =>
      .success 200 { collection := name, count := docs.length, total := total, docs := docs }

/-- GET /:collection/:id — `idValid` models `mongoose.Types.ObjectId.isValid`,
the store argument models `findById` (`none` = no document). -/
def getOneHandler {δ : Type} (collection _id : String) (idValid : Bool)
    (store : Except String (Option δ)) : ApiResp δ :=
  if ¬ isValidCollectionName collection then .failure 400 "Invalid collection name"
  else if ¬ idValid then .failure 400 "Invalid document ID"
  else
    match store with
    | .error e => .failure 500 e
    | .ok none => .failure 404 "Document not found"
    | .ok (some d) => .success 200 d

/-- POST /:collection — reject an empty body, otherwise `save` (the store
argument) and answer 201. -/
def createHandler {δ : Type} (name : String) (body : List (String × String))
    (store : Except String δ) : ApiResp δ :=
  if ¬ isValidCollectionName name then .failure 400 "Invalid collection name"
  else if body.isEmpty then .failure 400 "Request body cannot be empty"
  else
    match store with
    | .error e => .failure 500 e
    | .ok d => .success 201 d

/-- PUT /:collection/:id — `findByIdAndUpdate` with overwrite; `none`
models a missing document. -/
def replaceHandler {δ : Type} (collection _id : String) (idValid : Bool)
    (body : List (String × String)) (store : Except String (Option δ)) : ApiResp δ :=
  if ¬ isValidCollectionName collection then .failure 400 "Invalid collection name"
  else if ¬ idValid then .failure 400 "Invalid document ID"
  else if body.isEmpty then .failure 400 "Request body cannot be empty"
  else
    match store with
    | .error e => .failure 500 e
    | .ok none => .failure 404 "Document not found"
    | .ok (some d) => .success 200 d

/-- PATCH /:collection/:id — `findByIdAndUpdate` with `$set`. -/
def patchHandler {δ : Type} (collection _id : String) (idValid : Bool)
    (body : List (String × String)) (store : Except String (Option δ)) : ApiResp δ :=
  if ¬ isValidCollectionName collection then .failure 400 "Invalid collection name"
  else if ¬ idValid then .failure 400 "Invalid document ID"
  else if body.isEmpty then .failure 400 "Request body cannot be empty"
  else
    match store with
    | .error e => .failure 500 e
    | .ok none => .failure 404 "Document not found"
    | .ok (some d) => .success 200 d

/-- Body of a successful single-document deletion. -/
structure DeleteOneBody (δ : Type) where
  message : String
  deleted : δ
deriving DecidableEq

/-- DELETE /:collection/:id — `findByIdAndDelete`. -/
def deleteOneHandler {δ : Type} (collection _id : String) (idValid : Bool)
    (store : Except String (Option δ)) : ApiResp (DeleteOneBody δ) :=
  if ¬ isValidCollectionName collection then .failure 400 "Invalid collection name"
  else if ¬ idValid then .failure 400 "Invalid document ID"
  else
    match store with
    | .error e => .failure 500 e
    | .ok none => .failure 404 "Document not found"
    | .ok (some d) =>
      .success 200 { message := "Document deleted successfully", deleted := d }

/-- Body of a successful bulk deletion. -/
structure DeleteAllBody where
  message : String
  deletedCount : Nat
deriving DecidableEq

/-- DELETE /:collection — `deleteMany({})`, the store yields the deleted
count. -/
def deleteAllHandler (name : String) (store : Except String Nat) :
    ApiResp DeleteAllBody :=
  if ¬ isValidCollectionName name then .failure 400 "Invalid collection name"
  else
    match store with
    | .error e => .failure 500 e
    | .ok n =>
      .success 200 { message := "All documents deleted successfully", deletedCount := n }

/-- GET /collections — the store yields the names of the existing
collections (the image of `listCollections().toArray()` under `c.name`);
names with the `system.` prefix are filtered out.  A store failure maps
to the fixed message, not to the store's own text. -/
def collectionsHandler (store : Except String (List String)) :
    ApiResp (Nat × List String) :=
  match store with
  | .error _ => .failure 500 "Failed to fetch collections"
  | .ok cols =>
    let collectionNames := cols.filter fun n => !jsStartsWith n "system."
    .success 200 (collectionNames.length, collectionNames)

/-! ## Rate limiting (src/server.js, lines 49–65 and route wiring)

Modelled from the spec: the limiter algorithm itself lives in the
`express-rate-limit` dependency, outside `src/`; the spec describes it as
a fixed 15-minute window per IP that counts every hit and answers 429
once the count passes the cap.  The caps (100 global, 30 write) and the
attachment of the write limiter to exactly the POST/PUT/PATCH/DELETE
routes are from `src/server.js`. -/

/-- One fixed-window counter (per IP): window start time and hits inside
the window. -/
structure LimiterState where
  windowStart : Nat
  hits : Nat
deriving DecidableEq

/-- The 15-minute window, in milliseconds. -/
def windowMs : Nat := 15 * 60 * 1000

/-- Modelled from the spec: one hit on a fixed-window limiter with cap
`cap` at time `now` — reset the window if it has elapsed, count the hit,
accept iff the count is within the cap. -/
def limiterHit (cap : Nat) (st : LimiterState) (now : Nat) : Bool × LimiterState :=
  let st' := if st.windowStart + windowMs ≤ now then
      { windowStart := now, hits := 0 } else st
  let h := st'.hits + 1
  (h ≤ cap, { st' with hits := h })

/-- HTTP verbs reaching the API routes. -/
inductive Verb where
  | get | post | put | patch | delete
deriving DecidableEq

/-- The verbs guarded by `writeLimiter` (POST/PUT/PATCH/DELETE routes). -/
def isWriteVerb : Verb → Bool
  | .get => false
  | _ => true

/-- The two limiter counters for one IP. -/
structure GovState where
  glob : LimiterState
  write : LimiterState
deriving DecidableEq

/-- Fresh counters at time `t`. -/
def freshGov (t : Nat) : GovState :=
  { glob := { windowStart := t, hits := 0 }, write := { windowStart := t, hits := 0 } }

/-- Outcome of the governance chain for one request. -/
inductive RLResult where
  | accepted
  | tooMany
deriving DecidableEq

/-- One request from the IP at time `now`: the global limiter
(`app.use(globalLimiter)`, cap 100) runs first; if it passes and the verb
is a write, the route-level `writeLimiter` (cap 30) runs as well. -/
def handleRequest (st : GovState) (v : Verb) (now : Nat) : RLResult × GovState :=
  let g := limiterHit 100 st.glob now
  if ¬ g.1 then (.tooMany, { st with glob := g.2 })
  else if isWriteVerb v then
    let w := limiterHit 30 st.write now
    (if w.1 then .accepted else .tooMany, { glob := g.2, write := w.2 })
  else (.accepted, { st with glob := g.2 })

/-- Run a sequence of same-IP requests, collecting each outcome. -/
def runRequests (st : GovState) : List (Verb × Nat) → List RLResult × GovState
  | [] => ([], st)
  | (v, t) :: rest =>
    let r := handleRequest st v t
    let rs := runRequests r.2 rest
    (r.1 :: rs.1, rs.2)

/-! ## Classification of query-parameter keys

To reason about the order of the `buildQuery` loop, each key is
classified by the branch of the if/else chain it takes.  `applyParam`
factors through this classification. -/

/-- The three pagination/sort targets written by the `_limit`,
`_skip`/`_offset` and `_sort` branches. -/
inductive OptTarget where
  | limitT | skipT | sortT
deriving DecidableEq

/-- The branch a key takes in `buildQuery`. -/
inductive KeyClass where
  | opt (t : OptTarget)
  | searchK
  | gteK (f : String)
  | lteK (f : String)
  | neK (f : String)
  | exactK (f : String)
  | ignored
deriving DecidableEq

/-- Which branch of the if/else chain handles `key`. -/
def classify (key : String) : KeyClass :=
  if key = "_limit" then .opt .limitT
  else if key = "_skip" ∨ key = "_offset" then .opt .skipT
  else if key = "_sort" then .opt .sortT
  else if key = "_search" then .searchK
  else if jsEndsWith key "_gte" then .gteK (jsDropRight key 4)
  else if jsEndsWith key "_lte" then .lteK (jsDropRight key 4)
  else if jsEndsWith key "_ne" then .neK (jsDropRight key 3)
  else if ¬ jsStartsWith key "_" then .exactK key
  else .ignored

/-- The options field written by an `opt` branch. -/
def applyOpt : OptTarget → String → QueryOptions → QueryOptions
  | .limitT, value, o => { o with limit := min (jsOrDefault (jsParseInt value) 100) 1000 }
  | .skipT, value, o => { o with skip := max (jsOrDefault (jsParseInt value) 0) 0 }
  | .sortT, value, o =>
    { o with sort := (if jsStartsWith value "-" then jsDrop value 1 else value,
                      if jsStartsWith value "-" then (-1 : Int) else 1) }

/-- The filter field a class writes, if any. -/
def fieldOf : KeyClass → Option String
  | .searchK => some "$text"
  | .gteK f => some f
  | .lteK f => some f
  | .neK f => some f
  | .exactK f => some f
  | _ => none

/-- The new condition a field-writing class stores, as a function of the
condition previously recorded under the field. -/
def fieldUpdate : KeyClass → String → Option FieldCond → FieldCond
  | .searchK, value, _ => .obj (setKey emptyMap "$search" value)
  | .gteK _, value, old => mergeOp "$gte" value old
  | .lteK _, value, old => mergeOp "$lte" value old
  | .neK _, value, _ => .obj (setKey emptyMap "$ne" value)
  | _, value, _ => .str value

/-- The loop body, expressed through the key's class. -/
def applyClass (c : KeyClass) (value : String) (s : BuildResult) : BuildResult :=
  match c with
  | .opt t => { s with options := applyOpt t value s.options }
  | .ignored => s
  | c =>
    match fieldOf c with
    | some f => { s with query := setField s.query f (fieldUpdate c value (s.query f)) }
    | none => s

/-- How a field-writing branch transforms the recorded condition: merge
one operator in, replace with a fresh one-operator object, or replace
with a bare string. -/
inductive CondAct where
  | mergeA (op : String)
  | replaceObjA (op : String)
  | replaceStrA
deriving DecidableEq

/-- Run a condition action on the previously recorded condition. -/
def runCond : CondAct → String → Option FieldCond → FieldCond
  | .mergeA op, v, old => mergeOp op v old
  | .replaceObjA op, v, _ => .obj (setKey emptyMap op v)
  | .replaceStrA, v, _ => .str v

/-- The write a branch performs: an options write, a filter-field write,
or nothing. -/
inductive Action where
  | optA (t : OptTarget)
  | fldA (f : String) (a : CondAct)
  | nothingA
deriving DecidableEq

/-- The action of each branch. -/
def actionOf : KeyClass → Action
  | .opt t => .optA t
  | .searchK => .fldA "$text" (.replaceObjA "$search")
  | .gteK f => .fldA f (.mergeA "$gte")
  | .lteK f => .fldA f (.mergeA "$lte")
  | .neK f => .fldA f (.replaceObjA "$ne")
  | .exactK f => .fldA f .replaceStrA
  | .ignored => .nothingA

/-- Run an action. -/
def runAction : Action → String → BuildResult → BuildResult
  | .optA t, v, s => { s with options := applyOpt t v s.options }
  | .fldA f a, v, s => { s with query := setField s.query f (runCond a v (s.query f)) }
  | .nothingA, _, s => s


/-- Two condition actions on the same field commute only when both merge
distinct operators. -/
def condActOk : CondAct → CondAct → Bool
  | .mergeA op1, .mergeA op2 => op1 ≠ op2
  | _, _ => false

/-- Two actions commute: distinct options targets, distinct fields, or a
compatible merge pair on one field. -/
def actCompat : Action → Action → Bool
  | .nothingA, _ => true
  | _, .nothingA => true
  | .optA t1, .optA t2 => t1 ≠ t2
  | .optA _, _ => true
  | _, .optA _ => true
  | .fldA f1 a1, .fldA f2 a2 => f1 ≠ f2 || condActOk a1 a2

/-- Two query-parameter keys write disjoint targets (or form a
`_gte`/`_lte` pair merging into one operator object). -/
def compatB (k1 k2 : String) : Bool :=
  actCompat (actionOf (classify k1)) (actionOf (classify k2))

/-- Registry invariant: each memoized handle points at the collection it
is filed under. -/
def RegistryWF (st : RegistryState) : Prop :=
  ∀ p ∈ st.models, p.2.collection = p.1

/-- `applyClass` is `runAction` of the branch's action. -/
theorem applyClass_eq_runAction (c : KeyClass) (v : String) (s : BuildResult) :
    applyClass c v s = runAction (actionOf c) v s := by
  cases c <;> rfl

set_option maxHeartbeats 1000000 in
/-- `applyParam` takes exactly the branch `classify` names. -/
theorem applyParam_eq_applyClass (s : BuildResult) (k v : String) :
    applyParam s (k, v) = applyClass (classify k) v s := by
  simp only [applyParam, classify]
  split_ifs <;> simp_all [applyClass, applyOpt, fieldOf, fieldUpdate]


/-! ### Commutation lemmas for the map updates -/

theorem setKey_comm (m : JsMap) (k1 k2 v1 v2 : String) (h : k1 ≠ k2) :
    setKey (setKey m k1 v1) k2 v2 = setKey (setKey m k2 v2) k1 v1 := by
  funext k
  unfold setKey
  by_cases h1 : k = k1 <;> by_cases h2 : k = k2
  · exact absurd (h1.symm.trans h2) h
  · simp [h1, h2, h, Ne.symm h]
  · simp [h1, h2, h, Ne.symm h]
  · simp [h1, h2]

theorem mergeOp_comm (op1 op2 v1 v2 : String) (h : op1 ≠ op2) (old : Option FieldCond) :
    mergeOp op2 v2 (some (mergeOp op1 v1 old)) =
      mergeOp op1 v1 (some (mergeOp op2 v2 old)) := by
  cases old with
  | none => simp only [mergeOp]; rw [setKey_comm _ _ _ _ _ h]
  | some c =>
    cases c <;> simp only [mergeOp] <;> rw [setKey_comm _ _ _ _ _ h]

theorem setField_lookup_self (q : Query) (f : String) (c : FieldCond) :
    setField q f c f = some c := by
  simp [setField]

theorem setField_lookup_ne (q : Query) (f g : String) (c : FieldCond) (h : g ≠ f) :
    setField q f c g = q g := by
  simp [setField, h]

theorem setField_comm (q : Query) (f g : String) (c d : FieldCond) (h : f ≠ g) :
    setField (setField q f c) g d = setField (setField q g d) f c := by
  funext k
  unfold setField
  by_cases h1 : k = f <;> by_cases h2 : k = g
  · exact absurd (h1.symm.trans h2) h
  · simp [h1, h2, h, Ne.symm h]
  · simp [h1, h2, h, Ne.symm h]
  · simp [h1, h2]

theorem setField_override (q : Query) (f : String) (c d : FieldCond) :
    setField (setField q f c) f d = setField q f d := by
  funext k
  unfold setField
  by_cases h1 : k = f <;> simp [h1]

/-- Writes to two distinct filter fields commute, even when each new
condition is computed from the field's previous condition. -/
theorem fieldWrite_comm (q : Query) (f1 f2 : String)
    (T1 T2 : Option FieldCond → FieldCond) (h : f1 ≠ f2) :
    setField (setField q f1 (T1 (q f1))) f2 (T2 (setField q f1 (T1 (q f1)) f2)) =
      setField (setField q f2 (T2 (q f2))) f1 (T1 (setField q f2 (T2 (q f2)) f1)) := by
  rw [setField_lookup_ne _ _ _ _ (Ne.symm h), setField_lookup_ne _ _ _ _ h,
    setField_comm _ _ _ _ _ h]

/-- Compatible actions commute on the build state. -/
theorem runAction_comm (a1 a2 : Action) (v1 v2 : String)
    (h : actCompat a1 a2 = true) (s : BuildResult) :
    runAction a2 v2 (runAction a1 v1 s) = runAction a1 v1 (runAction a2 v2 s) := by
  cases a1 with
  | nothingA => rfl
  | optA t1 =>
    cases a2 with
    | nothingA => rfl
    | optA t2 =>
      have ht : t1 ≠ t2 := by
        simpa [actCompat] using h
      cases t1 <;> cases t2 <;> first | exact absurd rfl ht | rfl
    | fldA f2 a2 => rfl
  | fldA f1 a1 =>
    cases a2 with
    | nothingA => rfl
    | optA t2 => rfl
    | fldA f2 a2 =>
      by_cases hf : f1 = f2
      · subst hf
        have hok : condActOk a1 a2 = true := by
          simpa [actCompat] using h
        cases a1 with
        | mergeA op1 =>
          cases a2 with
          | mergeA op2 =>
            have hop : op1 ≠ op2 := by
              simpa [condActOk] using hok
            show ({ s with query := _ } : BuildResult) = { s with query := _ }
            simp only [runAction, runCond]
            rw [setField_override, setField_override,
              setField_lookup_self, setField_lookup_self,
              mergeOp_comm _ _ _ _ hop]
          | replaceObjA _ => simp [condActOk] at hok
          | replaceStrA => simp [condActOk] at hok
        | replaceObjA _ => simp [condActOk] at hok
        | replaceStrA => simp [condActOk] at hok
      · show ({ s with query := _ } : BuildResult) = { s with query := _ }
        simp only [runAction]
        rw [fieldWrite_comm _ _ _ _ _ hf]

/-- Compatible loop iterations commute. -/
theorem applyParam_comm (s : BuildResult) (p1 p2 : String × String)
    (h : compatB p1.1 p2.1 = true) :
    applyParam (applyParam s p1) p2 = applyParam (applyParam s p2) p1 := by
  obtain ⟨k1, v1⟩ := p1
  obtain ⟨k2, v2⟩ := p2
  rw [applyParam_eq_applyClass, applyParam_eq_applyClass,
    applyParam_eq_applyClass, applyParam_eq_applyClass,
    applyClass_eq_runAction, applyClass_eq_runAction,
    applyClass_eq_runAction, applyClass_eq_runAction]
  exact runAction_comm _ _ _ _ h s

/-- Folds of the loop body over any two orders of the same compatible
entries agree (keys pairwise distinct, conflicting pairs excluded). -/
theorem foldl_applyParam_perm (l1 l2 : List (String × String))
    (hperm : l1.Perm l2)
    (hnd : (l1.map Prod.fst).Nodup)
    (hcompat : ∀ p ∈ l1, ∀ q ∈ l1, p.1 ≠ q.1 → compatB p.1 q.1 = true)
    (s : BuildResult) :
    l1.foldl applyParam s = l2.foldl applyParam s := by
  refine hperm.foldl_eq' (fun x hx y hy z => ?_) s
  by_cases hxy : x = y
  · subst hxy; rfl
  · have hk : x.1 ≠ y.1 := fun hk1 =>
      hxy (List.inj_on_of_nodup_map hnd hx hy hk1)
    exact applyParam_comm z x y (hcompat x hx y hy hk)

/-! ### Fold invariants for the options -/

/-- Only the key `_limit` is classified to the limit branch. -/
theorem classify_limitT (k : String) (h : classify k = .opt .limitT) :
    k = "_limit" := by
  unfold classify at h
  split_ifs at h <;> simp_all

/-- Only the key `_sort` is classified to the sort branch. -/
theorem classify_sortT (k : String) (h : classify k = .opt .sortT) :
    k = "_sort" := by
  unfold classify at h
  split_ifs at h <;> simp_all

/-- Branches other than the limit one leave `options.limit` alone. -/
theorem applyClass_limit (c : KeyClass) (v : String) (s : BuildResult)
    (h : c ≠ .opt .limitT) :
    (applyClass c v s).options.limit = s.options.limit := by
  cases c with
  | opt t =>
    cases t with
    | limitT => exact absurd rfl h
    | skipT => rfl
    | sortT => rfl
  | searchK => rfl
  | gteK f => rfl
  | lteK f => rfl
  | neK f => rfl
  | exactK f => rfl
  | ignored => rfl

/-- Branches other than the sort one leave `options.sort` alone. -/
theorem applyClass_sort (c : KeyClass) (v : String) (s : BuildResult)
    (h : c ≠ .opt .sortT) :
    (applyClass c v s).options.sort = s.options.sort := by
  cases c with
  | opt t =>
    cases t with
    | limitT => rfl
    | skipT => rfl
    | sortT => exact absurd rfl h
  | searchK => rfl
  | gteK f => rfl
  | lteK f => rfl
  | neK f => rfl
  | exactK f => rfl
  | ignored => rfl

/-- Only the `_limit` branch writes `options.limit`. -/
theorem applyParam_limit (s : BuildResult) (p : String × String) :
    (applyParam s p).options.limit =
      (if p.1 = "_limit" then min (jsOrDefault (jsParseInt p.2) 100) 1000
       else s.options.limit) := by
  obtain ⟨k, v⟩ := p
  rw [applyParam_eq_applyClass]
  by_cases h : k = "_limit"
  · subst h
    rfl
  · rw [if_neg h]
    exact applyClass_limit _ _ _ fun hc => h (classify_limitT k hc)

/-- Only the `_sort` branch writes `options.sort`. -/
theorem applyParam_sort (s : BuildResult) (p : String × String) :
    (applyParam s p).options.sort =
      (if p.1 = "_sort" then
        (if jsStartsWith p.2 "-" then jsDrop p.2 1 else p.2,
         if jsStartsWith p.2 "-" then (-1 : Int) else 1)
       else s.options.sort) := by
  obtain ⟨k, v⟩ := p
  rw [applyParam_eq_applyClass]
  by_cases h : k = "_sort"
  · subst h
    rfl
  · rw [if_neg h]
    exact applyClass_sort _ _ _ fun hc => h (classify_sortT k hc)

/-- A fold over entries without the `_limit` key leaves `limit` alone. -/
theorem foldl_limit_of_not_mem (l : List (String × String)) (s : BuildResult)
    (h : "_limit" ∉ l.map Prod.fst) :
    (l.foldl applyParam s).options.limit = s.options.limit := by
  induction l generalizing s with
  | nil => rfl
  | cons p rest ih =>
    have hp : p.1 ≠ "_limit" := by
      intro hc
      exact h (by simp [hc.symm])
    have hrest : "_limit" ∉ rest.map Prod.fst := by
      intro hc
      exact h (by simp [hc])
    rw [List.foldl_cons, ih _ hrest, applyParam_limit, if_neg hp]

/-- The fold keeps `limit ≤ 1000` invariant. -/
theorem foldl_limit_le (l : List (String × String)) (s : BuildResult)
    (h : s.options.limit ≤ 1000) :
    (l.foldl applyParam s).options.limit ≤ 1000 := by
  induction l generalizing s with
  | nil => exact h
  | cons p rest ih =>
    rw [List.foldl_cons]
    refine ih _ ?_
    rw [applyParam_limit]
    split_ifs with h1
    · exact min_le_right _ _
    · exact h

/-- A fold over entries without the `_sort` key leaves `sort` alone. -/
theorem foldl_sort_of_not_mem (l : List (String × String)) (s : BuildResult)
    (h : "_sort" ∉ l.map Prod.fst) :
    (l.foldl applyParam s).options.sort = s.options.sort := by
  induction l generalizing s with
  | nil => rfl
  | cons p rest ih =>
    have hp : p.1 ≠ "_sort" := by
      intro hc
      exact h (by simp [hc.symm])
    have hrest : "_sort" ∉ rest.map Prod.fst := by
      intro hc
      exact h (by simp [hc])
    rw [List.foldl_cons, ih _ hrest, applyParam_sort, if_neg hp]

/-! ### Registry helper lemmas -/

/-- A successful association-list lookup exhibits a member. -/
theorem lookup_mem {β : Type} (l : List (String × β)) (k : String) (m : β)
    (h : l.lookup k = some m) : (k, m) ∈ l := by
  induction l with
  | nil => simp [List.lookup] at h
  | cons p rest ih =>
    obtain ⟨k', b⟩ := p
    rw [List.lookup] at h
    by_cases hk : k = k'
    · subst hk
      simp at h
      simp [h]
    · have : (k == k') = false := beq_false_of_ne hk
      rw [this] at h
      simp [ih h]


/-! ## Claim theorems -/

/-- C1, counterexample: `_limit=-5` yields `options.limit = -5`, which
lies below 1 — the translator does not clamp the parsed limit into
`[1, 1000]` from below. -/
theorem C1_limit_counterexample :
    (buildQuery [("_limit", "-5")]).options.limit = -5 ∧
    ¬ (1 ≤ (buildQuery [("_limit", "-5")]).options.limit ∧
       (buildQuery [("_limit", "-5")]).options.limit ≤ 1000) := by
  exact ⟨by decide, by decide⟩

/-- C1 (amended): `options.limit` is `min(parseInt(v) || 100, 1000)` — it
is clamped above by 1000 and defaults to 100 when `_limit` is absent,
non-numeric, or parses to 0; `_limit=5000` yields 1000.  There is no
lower clamp: a negative parse passes through below 1. -/
theorem C1_limit_amended (ps : List (String × String)) :
    (buildQuery ps).options.limit ≤ 1000 ∧
    ("_limit" ∉ ps.map Prod.fst → (buildQuery ps).options.limit = 100) ∧
    (buildQuery [("_limit", "5000")]).options.limit = 1000 ∧
    (buildQuery [("_limit", "0")]).options.limit = 100 ∧
    (buildQuery [("_limit", "abc")]).options.limit = 100 := by
  refine ⟨?_, fun h => ?_, by decide, by decide, by decide⟩
  · exact foldl_limit_le ps initState (by decide)
  · rw [buildQuery, foldl_limit_of_not_mem ps initState h]
    rfl

/-- C1 witness: the amended theorem applied to `[("x", "1")]`. -/
theorem C1_limit_amended_witness :
    (buildQuery [("x", "1")]).options.limit = 100 :=
  (C1_limit_amended [("x", "1")]).2.1 (by decide)

/-- C8: without a `_sort` key the sort option is descending `createdAt`;
a `_sort=v` entry sets it from `v` (leading `-` stripped, order `-1`,
otherwise ascending), and any later `_sort` entry overwrites an earlier
one; the sort option is a single field/direction pair by construction. -/
theorem C8_sort_option (ps : List (String × String)) :
    ("_sort" ∉ ps.map Prod.fst →
      (buildQuery ps).options.sort = ("createdAt", -1)) ∧
    (∀ (l1 l2 : List (String × String)) (v : String),
      ps = l1 ++ ("_sort", v) :: l2 → "_sort" ∉ l2.map Prod.fst →
      (buildQuery ps).options.sort =
        (if jsStartsWith v "-" then jsDrop v 1 else v,
         if jsStartsWith v "-" then (-1 : Int) else 1)) := by
  constructor
  · intro h
    rw [buildQuery, foldl_sort_of_not_mem ps initState h]
    rfl
  · intro l1 l2 v hps h2
    subst hps
    rw [buildQuery, List.foldl_append, List.foldl_cons,
      foldl_sort_of_not_mem l2 _ h2, applyParam_sort]
    simp

/-- C8 witness: default sort, and a second `_sort` entry overwriting the
first with descending `price`. -/
theorem C8_sort_option_witness :
    (buildQuery [("a", "1")]).options.sort = ("createdAt", -1) ∧
    (buildQuery [("_sort", "price"), ("_sort", "-price")]).options.sort
      = ("price", -1) := by
  constructor
  · exact (C8_sort_option [("a", "1")]).1 (by decide)
  · exact Eq.trans
      ((C8_sort_option [("_sort", "price"), ("_sort", "-price")]).2
        [("_sort", "price")] [] "-price" rfl (by decide))
      (by decide)

/-- C4: a `_gte`/`_lte` key merges its operator into the condition
already recorded for the stripped field, so `f_gte=a&f_lte=b` yields one
combined range object; a `_ne` key replaces the field's condition with a
fresh `{$ne: v}` object regardless of what was recorded. -/
theorem C4_merge_versus_replace :
    (∀ (s : BuildResult) (k v : String), jsEndsWith k "_gte" = true →
      applyParam s (k, v) =
        { s with query := (setField s.query (jsDropRight k 4)
            (mergeOp "$gte" v (s.query (jsDropRight k 4)))) }) ∧
    (∀ (s : BuildResult) (k v : String), jsEndsWith k "_lte" = true →
      jsEndsWith k "_gte" = false →
      applyParam s (k, v) =
        { s with query := (setField s.query (jsDropRight k 4)
            (mergeOp "$lte" v (s.query (jsDropRight k 4)))) }) ∧
    (∀ (s : BuildResult) (k v : String), jsEndsWith k "_ne" = true →
      jsEndsWith k "_gte" = false → jsEndsWith k "_lte" = false →
      applyParam s (k, v) =
        { s with query := (setField s.query (jsDropRight k 3)
            (.obj (setKey emptyMap "$ne" v))) }) ∧
    condLookup ((buildQuery [("f_gte", "a"), ("f_lte", "b")]).query "f") "$gte" = some "a" ∧
    condLookup ((buildQuery [("f_gte", "a"), ("f_lte", "b")]).query "f") "$lte" = some "b" ∧
    condLookup ((buildQuery [("f_gte", "a"), ("f_ne", "c")]).query "f") "$ne" = some "c" ∧
    condLookup ((buildQuery [("f_gte", "a"), ("f_ne", "c")]).query "f") "$gte" = none := by
  refine ⟨?_, ?_, ?_, by decide, by decide, by decide, by decide⟩
  · intro s k v h
    have h1 : k ≠ "_limit" := by
      intro hc; subst hc; exact absurd h (by decide)
    have h2 : ¬ (k = "_skip" ∨ k = "_offset") := by
      rintro (hc | hc) <;> subst hc <;> exact absurd h (by decide)
    have h3 : k ≠ "_sort" := by
      intro hc; subst hc; exact absurd h (by decide)
    have h4 : k ≠ "_search" := by
      intro hc; subst hc; exact absurd h (by decide)
    have hclass : classify k = .gteK (jsDropRight k 4) := by
      unfold classify
      rw [if_neg h1, if_neg h2, if_neg h3, if_neg h4, if_pos h]
    rw [applyParam_eq_applyClass, hclass]
    rfl
  · intro s k v h hgte
    have h1 : k ≠ "_limit" := by
      intro hc; subst hc; exact absurd h (by decide)
    have h2 : ¬ (k = "_skip" ∨ k = "_offset") := by
      rintro (hc | hc) <;> subst hc <;> exact absurd h (by decide)
    have h3 : k ≠ "_sort" := by
      intro hc; subst hc; exact absurd h (by decide)
    have h4 : k ≠ "_search" := by
      intro hc; subst hc; exact absurd h (by decide)
    have hclass : classify k = .lteK (jsDropRight k 4) := by
      unfold classify
      rw [if_neg h1, if_neg h2, if_neg h3, if_neg h4]
      rw [hgte]
      rw [if_neg (by simp), if_pos h]
    rw [applyParam_eq_applyClass, hclass]
    rfl
  · intro s k v h hgte hlte
    have h1 : k ≠ "_limit" := by
      intro hc; subst hc; exact absurd h (by decide)
    have h2 : ¬ (k = "_skip" ∨ k = "_offset") := by
      rintro (hc | hc) <;> subst hc <;> exact absurd h (by decide)
    have h3 : k ≠ "_sort" := by
      intro hc; subst hc; exact absurd h (by decide)
    have h4 : k ≠ "_search" := by
      intro hc; subst hc; exact absurd h (by decide)
    have hclass : classify k = .neK (jsDropRight k 3) := by
      unfold classify
      rw [if_neg h1, if_neg h2, if_neg h3, if_neg h4]
      rw [hgte, hlte]
      rw [if_neg (by simp), if_neg (by simp), if_pos h]
    rw [applyParam_eq_applyClass, hclass]
    rfl

/-- C4 witness: the `_gte` part applied at the key `price_gte`. -/
theorem C4_merge_versus_replace_witness :
    applyParam initState ("price_gte", "10") =
      { initState with query := (setField initState.query (jsDropRight "price_gte" 4)
          (mergeOp "$gte" "10" (initState.query (jsDropRight "price_gte" 4)))) } :=
  C4_merge_versus_replace.1 initState "price_gte" "10" (by decide)

/-- C5: the validator accepts exactly the strings of length 1–50 made of
characters in `[A-Za-z0-9_-]`, and on every route taking a `:collection`
segment a rejected name yields the 400 response with error
"Invalid collection name" whatever the store would answer (so before any
store interaction). -/
theorem C5_collection_name_validation (name : String) :
    (isValidCollectionName name = true ↔
      (1 ≤ name.toList.length ∧ name.toList.length ≤ 50 ∧
        ∀ c ∈ name.toList, isNameChar c = true)) ∧
    (isValidCollectionName name = false →
      (∀ (qp : List (String × String))
          (store : BuildResult → Except String (List Unit × Nat)),
        getCollectionHandler name qp store = .failure 400 "Invalid collection name") ∧
      (∀ (i : String) (idValid : Bool) (store : Except String (Option Unit)),
        getOneHandler name i idValid store = .failure 400 "Invalid collection name") ∧
      (∀ (body : List (String × String)) (store : Except String Unit),
        createHandler name body store = .failure 400 "Invalid collection name") ∧
      (∀ (i : String) (idValid : Bool) (body : List (String × String))
          (store : Except String (Option Unit)),
        replaceHandler name i idValid body store = .failure 400 "Invalid collection name") ∧
      (∀ (i : String) (idValid : Bool) (body : List (String × String))
          (store : Except String (Option Unit)),
        patchHandler name i idValid body store = .failure 400 "Invalid collection name") ∧
      (∀ (i : String) (idValid : Bool) (store : Except String (Option Unit)),
        deleteOneHandler name i idValid store = .failure 400 "Invalid collection name") ∧
      (∀ store : Except String Nat,
        deleteAllHandler name store = .failure 400 "Invalid collection name")) := by
  constructor
  · simp [isValidCollectionName, List.all_eq_true]
  · intro h
    refine ⟨fun qp store => ?_, fun i idValid store => ?_, fun body store => ?_,
      fun i idValid body store => ?_, fun i idValid body store => ?_,
      fun i idValid store => ?_, fun store => ?_⟩ <;>
      simp [getCollectionHandler, getOneHandler, createHandler, replaceHandler,
        patchHandler, deleteOneHandler, deleteAllHandler, h]

/-- C5 witness: the name "bad name!" (contains a space and `!`) is
rejected on the single-document route whatever the store holds. -/
theorem C5_collection_name_validation_witness :
    getOneHandler "bad name!" "deadbeef" true (Except.ok (some ()))
      = .failure 400 "Invalid collection name" :=
  ((C5_collection_name_validation "bad name!").2 (by decide)).2.1
    "deadbeef" true (Except.ok (some ()))

/-- C9: a validator-accepted name is a fixed point of the registry's
sanitization, so the cache key — and, on first creation, the collection
the new handle points at — is exactly the raw validated name. -/
theorem C9_sanitize_fixed_point (name : String)
    (h : isValidCollectionName name = true) :
    sanitizeName name = name ∧
    (getDynamicModel emptyRegistry name).1.collection = name := by
  have hall : ∀ c ∈ name.toList, isNameChar c = true := by
    simp only [isValidCollectionName, Bool.and_eq_true, decide_eq_true_eq] at h
    exact List.all_eq_true.mp h.2.2
  have hfix : sanitizeName name = name := by
    unfold sanitizeName
    rw [List.filter_eq_self.mpr hall]
    cases name
    rfl
  refine ⟨hfix, ?_⟩
  simp [getDynamicModel, emptyRegistry, List.lookup, hfix]

/-- C9 witness: the fixed point at the valid name "users". -/
theorem C9_sanitize_fixed_point_witness :
    sanitizeName "users" = "users" ∧
    (getDynamicModel emptyRegistry "users").1.collection = "users" :=
  C9_sanitize_fixed_point "users" (by decide)

/-- C10: the collections listing returns exactly the store's names that
do not start with "system." — every returned name fails the prefix test —
and the returned count is the length of the returned list. -/
theorem C10_collections_listing (ns : List String) :
    collectionsHandler (.ok ns) =
      .success 200 ((ns.filter fun n => !jsStartsWith n "system.").length,
        ns.filter fun n => !jsStartsWith n "system.") ∧
    ((ns.filter fun n => !jsStartsWith n "system.").all
      fun n => !jsStartsWith n "system.") = true := by
  refine ⟨rfl, ?_⟩
  rw [List.all_eq_true]
  intro n hn
  exact (List.mem_filter.mp hn).2

/-- C6: `getDynamicModel` is idempotent on any well-formed registry —
the second call returns the same handle and the same registry, the handle
points at the sanitized name's storage, and well-formedness persists. -/
theorem C6_getDynamicModel_idempotent (st : RegistryState) (name : String)
    (hwf : RegistryWF st) :
    getDynamicModel (getDynamicModel st name).2 name = getDynamicModel st name ∧
    (getDynamicModel st name).1.collection = sanitizeName name ∧
    RegistryWF (getDynamicModel st name).2 := by
  cases hl : st.models.lookup (sanitizeName name) with
  | some m =>
    have hm : (sanitizeName name, m) ∈ st.models := lookup_mem _ _ _ hl
    have hcol : m.collection = sanitizeName name := hwf _ hm
    constructor
    · simp [getDynamicModel, hl]
    · constructor
      · simp [getDynamicModel, hl, hcol]
      · simp only [getDynamicModel, hl]
        exact hwf
  | none =>
    have hsecond :
        ((sanitizeName name,
            ({ collection := sanitizeName name, handleId := st.nextId } : ModelHandle))
          :: st.models).lookup (sanitizeName name) =
          some { collection := sanitizeName name, handleId := st.nextId } := by
      simp [List.lookup]
    constructor
    · simp [getDynamicModel, hl, hsecond]
    · constructor
      · simp [getDynamicModel, hl]
      · simp only [getDynamicModel, hl]
        intro p hp
        rcases List.mem_cons.mp hp with hfst | hrest
        · rw [hfst]
        · exact hwf _ hrest

/-- C6 witness: idempotence on the empty registry at the name "users". -/
theorem C6_getDynamicModel_idempotent_witness :
    getDynamicModel (getDynamicModel emptyRegistry "users").2 "users"
      = getDynamicModel emptyRegistry "users" :=
  (C6_getDynamicModel_idempotent emptyRegistry "users"
    (by intro p hp; simp [emptyRegistry] at hp)).1

/-- C3, counterexample: a store failure in the collections listing does
not surface verbatim — the handler answers with the fixed message
"Failed to fetch collections", not with the store's "boom". -/
theorem C3_counterexample :
    collectionsHandler (.error "boom") = .failure 500 "Failed to fetch collections" ∧
    "Failed to fetch collections" ≠ "boom" :=
  ⟨rfl, by decide⟩

/-- C3 (amended): store failures in the seven `/:collection` handlers
surface as 500 responses carrying the store's message verbatim, but the
collections listing replaces the message with the fixed string
"Failed to fetch collections". -/
theorem C3_store_errors_amended (name i e : String) (qp : List (String × String))
    (body : List (String × String)) (hname : isValidCollectionName name = true)
    (hbody : body.isEmpty = false) :
    getCollectionHandler (δ := Unit) name qp (fun _ => .error e) = .failure 500 e ∧
    getOneHandler (δ := Unit) name i true (.error e) = .failure 500 e ∧
    createHandler (δ := Unit) name body (.error e) = .failure 500 e ∧
    replaceHandler (δ := Unit) name i true body (.error e) = .failure 500 e ∧
    patchHandler (δ := Unit) name i true body (.error e) = .failure 500 e ∧
    deleteOneHandler (δ := Unit) name i true (.error e) = .failure 500 e ∧
    deleteAllHandler name (.error e) = .failure 500 e ∧
    collectionsHandler (.error e) = .failure 500 "Failed to fetch collections" := by
  refine ⟨?_, ?_, ?_, ?_, ?_, ?_, ?_, rfl⟩ <;>
    simp [getCollectionHandler, getOneHandler, createHandler, replaceHandler,
      patchHandler, deleteOneHandler, deleteAllHandler, hname, hbody]

/-- C3 witness: the amended theorem at the collection "users" with store
message "boom". -/
theorem C3_store_errors_amended_witness :
    getOneHandler (δ := Unit) "users" "x" true (.error "boom") = .failure 500 "boom" :=
  (C3_store_errors_amended "users" "x" "boom" [] [("a", "1")]
    (by decide) (by decide)).2.1

/-- C2, counterexample: the two orders of the same two entries
`b_ne=1, b_gte=2` yield different filters — processed after `b_ne`, the
`b_gte` entry merges `$gte` into the not-equal object; processed before,
it is overwritten, so the `$gte` constraint disappears. -/
theorem C2_counterexample :
    ([("b_ne", "1"), ("b_gte", "2")] : List (String × String)).Perm
        [("b_gte", "2"), ("b_ne", "1")] ∧
    condLookup ((buildQuery [("b_ne", "1"), ("b_gte", "2")]).query "b") "$gte" ≠
      condLookup ((buildQuery [("b_gte", "2"), ("b_ne", "1")]).query "b") "$gte" := by
  constructor
  · decide
  · decide

/-- C2 (amended): the translator's result is independent of the
enumeration order provided no two distinct keys write the same target —
`_skip` and `_offset` not both present, and no two keys constrain the
same stripped field unless they are a `_gte`/`_lte` pair (whose merges
commute). -/
theorem C2_order_insensitive_amended (l1 l2 : List (String × String))
    (hperm : l1.Perm l2)
    (hnd : (l1.map Prod.fst).Nodup)
    (hcompat : ∀ p ∈ l1, ∀ q ∈ l1, p.1 ≠ q.1 → compatB p.1 q.1 = true) :
    buildQuery l1 = buildQuery l2 :=
  foldl_applyParam_perm l1 l2 hperm hnd hcompat initState

/-- C2 witness: an equality filter, a range pair and a limit commute. -/
theorem C2_order_insensitive_amended_witness :
    buildQuery [("a", "1"), ("b_gte", "2"), ("b_lte", "9"), ("_limit", "5")]
      = buildQuery [("_limit", "5"), ("b_lte", "9"), ("b_gte", "2"), ("a", "1")] :=
  C2_order_insensitive_amended _ _ (by decide) (by decide) (by decide)

/-- C7: writes pass through the global and the write limiter (acceptance
iff both counters are within their caps), reads touch only the global
counter, and from fresh counters 31 same-window writes give 30
acceptances followed by the first 429; a read right after those 30 writes
is still accepted. -/
theorem C7_rate_limiting :
    (runRequests (freshGov 0) (List.replicate 31 (Verb.post, 0))).1 =
      List.replicate 30 .accepted ++ [.tooMany] ∧
    (handleRequest (runRequests (freshGov 0)
      (List.replicate 30 (Verb.post, 0))).2 .get 0).1 = .accepted ∧
    (∀ (st : GovState) (now : Nat),
      (handleRequest st .get now).2.write = st.write ∧
      ((handleRequest st .get now).1 = .accepted ↔
        (limiterHit 100 st.glob now).1 = true)) ∧
    (∀ (st : GovState) (v : Verb) (now : Nat), isWriteVerb v = true →
      ((handleRequest st v now).1 = .accepted ↔
        ((limiterHit 100 st.glob now).1 = true ∧
          (limiterHit 30 st.write now).1 = true))) := by
  refine ⟨by decide, by decide, fun st now => ?_, fun st v now hv => ?_⟩
  · unfold handleRequest
    by_cases hg : (limiterHit 100 st.glob now).1
    · simp [hg, isWriteVerb]
    · simp [hg]
  · unfold handleRequest
    rw [hv]
    by_cases hg : (limiterHit 100 st.glob now).1
    · by_cases hw : (limiterHit 30 st.write now).1
      · simp [hg, hw]
      · simp [hg, hw]
    · simp [hg]

/-- C7 witness: from fresh counters a write at time 0 is accepted, both
limiters agreeing. -/
theorem C7_rate_limiting_witness :
    (handleRequest (freshGov 0) .post 0).1 = .accepted :=
  (C7_rate_limiting.2.2.2 (freshGov 0) .post 0 (by decide)).mpr (by decide)

end TestApiServer
